import Mathlib

/-!
Formal model of the spherical-surface locomotion and follow-camera logic of
`src/sketch.js`: the alien's spherical/Cartesian state, the per-frame
`handleInput` / `updateAlien` / `updateCamera` functions, and the animation
tick that composes them.  Machine floats are modelled by real numbers; the
JavaScript `%` operator (sign-of-dividend remainder) is modelled explicitly
by `jsMod`.
-/

noncomputable section

/-- Three-component real vector, modelling `THREE.Vector3`. -/
@[ext]
structure Vec3 where
  x : ℝ
  y : ℝ
  z : ℝ

namespace Vec3

/-- The zero vector. -/
def zero : Vec3 := ⟨0, 0, 0⟩

/-- Componentwise addition (`Vector3.add`). -/
def add (u v : Vec3) : Vec3 := ⟨u.x + v.x, u.y + v.y, u.z + v.z⟩

/-- Componentwise subtraction (`Vector3.sub`). -/
def sub (u v : Vec3) : Vec3 := ⟨u.x - v.x, u.y - v.y, u.z - v.z⟩

/-- Scalar multiple (`Vector3.multiplyScalar`). -/
def smul (c : ℝ) (v : Vec3) : Vec3 := ⟨c * v.x, c * v.y, c * v.z⟩

/-- Euclidean length (`Vector3.length`). -/
def length (v : Vec3) : ℝ := Real.sqrt (v.x * v.x + v.y * v.y + v.z * v.z)

/-- `Vector3.normalize`: divide by the length. -/
def normalize (v : Vec3) : Vec3 := smul (1 / v.length) v

/-- `Vector3.setLength l`: normalize, then scale by `l`. -/
def setLength (v : Vec3) (l : ℝ) : Vec3 := smul l (normalize v)

/-- Standard cross product of two vectors. -/
def cross (u v : Vec3) : Vec3 :=
  ⟨u.y * v.z - u.z * v.y, u.z * v.x - u.x * v.z, u.x * v.y - u.y * v.x⟩

end Vec3

/-- `const BLOCK_SIZE = 10`. -/
def BLOCK_SIZE : ℝ := 10

/-- `const PLANET_RADIUS = 100 * BLOCK_SIZE`. -/
def PLANET_RADIUS : ℝ := 100 * BLOCK_SIZE

/-- `const ALIEN_DISTANCE = 101 * BLOCK_SIZE`. -/
def ALIEN_DISTANCE : ℝ := 101 * BLOCK_SIZE

/-- `const CENTER_AXIS = new THREE.Vector3(0, 0, 0)`. -/
def CENTER_AXIS : Vec3 := ⟨0, 0, 0⟩

/-- `const ANGLE_SPEED = 0.02`. -/
def ANGLE_SPEED : ℝ := 0.02

/-- `const ZOOM_SPEED = 10`. -/
def ZOOM_SPEED : ℝ := 10

/-- `const MIN_ZOOM = 25`. -/
def MIN_ZOOM : ℝ := 25

/-- `const MAX_ZOOM = 500`. -/
def MAX_ZOOM : ℝ := 500

/-- The alien's spherical coordinates: `alien.spherical = { theta, phi }`. -/
structure Spherical where
  theta : ℝ
  phi : ℝ

/-- The mutable state touched by one animation tick: the alien's cached
Cartesian position and spherical angles, the zoom distance, and the camera
pose (position plus `lookAt` target). -/
structure GameState where
  position : Vec3
  spherical : Spherical
  cameraDistance : ℝ
  cameraPosition : Vec3
  cameraLookAt : Vec3

/-- Pressed/released state of the keys the tick reads (`keys` map). -/
structure Keys where
  w : Bool
  s : Bool
  a : Bool
  d : Bool
  o : Bool
  p : Bool

/-- No key pressed. -/
def noKeys : Keys := ⟨false, false, false, false, false, false⟩

/-- Only `w` pressed. -/
def wKey : Keys := ⟨true, false, false, false, false, false⟩

/-- Only `s` pressed. -/
def sKey : Keys := ⟨false, true, false, false, false, false⟩

/-- Only `a` pressed. -/
def aKey : Keys := ⟨false, false, true, false, false, false⟩

/-- Only `o` pressed. -/
def oKey : Keys := ⟨false, false, false, false, true, false⟩

/-- Truncation toward zero, as JavaScript division underlying `%` uses. -/
def jsTrunc (r : ℝ) : ℤ := if 0 ≤ r then ⌊r⌋ else ⌈r⌉

/-- The JavaScript `%` operator on numbers: remainder with the sign of the
dividend, `a % b = a - b * trunc(a / b)`. -/
def jsMod (a b : ℝ) : ℝ := a - b * (jsTrunc (a / b) : ℝ)

/-- Net polar-angle delta accumulated from the `w`/`s` keys in `handleInput`. -/
def dTheta (k : Keys) : ℝ :=
  (if k.w then -ANGLE_SPEED else 0) + (if k.s then ANGLE_SPEED else 0)

/-- Net azimuth delta accumulated from the `a`/`d` keys in `handleInput`. -/
def dPhi (k : Keys) : ℝ :=
  (if k.a then -ANGLE_SPEED else 0) + (if k.d then ANGLE_SPEED else 0)

/-- The Cartesian position `handleInput` computes from spherical coordinates:
`x = r sin θ sin φ`, `y = r cos θ`, `z = r sin θ cos φ` with `r = ALIEN_DISTANCE`. -/
def project (theta phi : ℝ) : Vec3 :=
  ⟨ALIEN_DISTANCE * Real.sin theta * Real.sin phi,
   ALIEN_DISTANCE * Real.cos theta,
   ALIEN_DISTANCE * Real.sin theta * Real.cos phi⟩

/-- `handleInput()`: accumulate angular deltas from WASD; if some delta is
nonzero, clamp the polar angle, wrap the azimuth with JavaScript `%`, and
recompute the Cartesian position; then apply the `o`/`p` zoom clamps. -/
def handleInput (st : GameState) (k : Keys) : GameState :=
  let dT := dTheta k
  let dP := dPhi k
  let st1 :=
    if dT ≠ 0 ∨ dP ≠ 0 then
      let th := min (max 0.01 (st.spherical.theta + dT)) (Real.pi - 0.01)
      let ph := jsMod (st.spherical.phi + dP) (Real.pi * 2)
      { st with spherical := ⟨th, ph⟩, position := project th ph }
    else st
  let st2 :=
    if k.o then { st1 with cameraDistance := max MIN_ZOOM (st1.cameraDistance - ZOOM_SPEED) }
    else st1
  if k.p then { st2 with cameraDistance := min MAX_ZOOM (st2.cameraDistance + ZOOM_SPEED) }
  else st2

/-- `updateAlien()`: if the position has zero length, return; otherwise set
its length to exactly `ALIEN_DISTANCE`. -/
def updateAlien (st : GameState) : GameState :=
  if st.position.length = 0 then st
  else { st with position := st.position.setLength ALIEN_DISTANCE }

/-- `updateCamera()`: if the alien position has zero length, return without
touching the camera; otherwise place the camera at
`normalize(position) * (ALIEN_DISTANCE + cameraDistance)` and look at the alien. -/
def updateCamera (st : GameState) : GameState :=
  if st.position.length = 0 then st
  else
    let dir := st.position.normalize
    let camDistFromCenter := ALIEN_DISTANCE + st.cameraDistance
    let camPos := Vec3.smul camDistFromCenter dir
    { st with cameraPosition := camPos, cameraLookAt := st.position }

/-- One animation tick, in the order `animate()` runs the model-relevant
steps: `handleInput`, then `updateAlien`, then `updateCamera`. -/
def tick (st : GameState) (k : Keys) : GameState :=
  updateCamera (updateAlien (handleInput st k))

/-- The startup state: alien at the top of the planet `(0, ALIEN_DISTANCE, 0)`
with `theta = 0, phi = 0`, `cameraDistance = 200`, camera at the default pose. -/
def initState : GameState :=
  { position := ⟨0, ALIEN_DISTANCE, 0⟩
    spherical := ⟨0, 0⟩
    cameraDistance := 200
    cameraPosition := ⟨0, 0, 0⟩
    cameraLookAt := ⟨0, 0, 0⟩ }

/-- Run a sequence of ticks, one per key snapshot in the list. -/
def runTicks (st : GameState) : List Keys → GameState
  | [] => st
  | k :: ks => runTicks (tick st k) ks

/-- The zoom-in branch `cameraDistance = Math.max(MIN_ZOOM, cameraDistance - ZOOM_SPEED)`. -/
def zoomIn (cd : ℝ) : ℝ := max MIN_ZOOM (cd - ZOOM_SPEED)

/-- The zoom-out branch `cameraDistance = Math.min(MAX_ZOOM, cameraDistance + ZOOM_SPEED)`. -/
def zoomOut (cd : ℝ) : ℝ := min MAX_ZOOM (cd + ZOOM_SPEED)

/-- The net effect of one `handleInput` call on `cameraDistance`. -/
def zoomStep (cd : ℝ) (k : Keys) : ℝ :=
  let cd1 := if k.o then zoomIn cd else cd
  if k.p then zoomOut cd1 else cd1

/-! ### Vector and projection lemmas -/

lemma vec_smul_smul (c d : ℝ) (v : Vec3) :
    Vec3.smul c (Vec3.smul d v) = Vec3.smul (c * d) v := by
  ext <;> simp [Vec3.smul] <;> ring

lemma vec_smul_one (v : Vec3) : Vec3.smul 1 v = v := by
  ext <;> simp [Vec3.smul]

lemma vec_sub_center (v : Vec3) : Vec3.sub v CENTER_AXIS = v := by
  ext <;> simp [Vec3.sub, CENTER_AXIS]

lemma vec_add_center (v : Vec3) : Vec3.add v CENTER_AXIS = v := by
  ext <;> simp [Vec3.add, CENTER_AXIS]

lemma length_nonneg (v : Vec3) : 0 ≤ v.length := Real.sqrt_nonneg _

lemma length_smul (c : ℝ) (v : Vec3) : (Vec3.smul c v).length = |c| * v.length := by
  unfold Vec3.length Vec3.smul
  rw [show c * v.x * (c * v.x) + c * v.y * (c * v.y) + c * v.z * (c * v.z) =
      c ^ 2 * (v.x * v.x + v.y * v.y + v.z * v.z) by ring,
    Real.sqrt_mul (sq_nonneg c), Real.sqrt_sq_eq_abs]

lemma length_normalize (v : Vec3) (h : v.length ≠ 0) : v.normalize.length = 1 := by
  have h0 : 0 < v.length := lt_of_le_of_ne (length_nonneg v) (Ne.symm h)
  unfold Vec3.normalize
  rw [length_smul, abs_of_pos (by positivity), one_div, inv_mul_cancel₀ h]

lemma length_setLength (v : Vec3) (l : ℝ) (h : v.length ≠ 0) (hl : 0 ≤ l) :
    (v.setLength l).length = l := by
  unfold Vec3.setLength
  rw [length_smul, length_normalize v h, mul_one, abs_of_nonneg hl]

lemma setLength_of_length (v : Vec3) (h : v.length ≠ 0) : v.setLength v.length = v := by
  unfold Vec3.setLength Vec3.normalize
  rw [vec_smul_smul, show v.length * (1 / v.length) = 1 by field_simp]
  exact vec_smul_one v

lemma ALIEN_DISTANCE_pos : (0 : ℝ) < ALIEN_DISTANCE := by
  norm_num [ALIEN_DISTANCE, BLOCK_SIZE]

lemma project_length (theta phi : ℝ) : (project theta phi).length = ALIEN_DISTANCE := by
  unfold project Vec3.length
  rw [show ALIEN_DISTANCE * Real.sin theta * Real.sin phi *
        (ALIEN_DISTANCE * Real.sin theta * Real.sin phi) +
        ALIEN_DISTANCE * Real.cos theta * (ALIEN_DISTANCE * Real.cos theta) +
        ALIEN_DISTANCE * Real.sin theta * Real.cos phi *
        (ALIEN_DISTANCE * Real.sin theta * Real.cos phi) =
        ALIEN_DISTANCE ^ 2 *
          ((Real.sin phi ^ 2 + Real.cos phi ^ 2) * Real.sin theta ^ 2 +
            Real.cos theta ^ 2) by ring,
    Real.sin_sq_add_cos_sq, one_mul, Real.sin_sq_add_cos_sq, mul_one,
    Real.sqrt_sq (le_of_lt ALIEN_DISTANCE_pos)]

lemma project_length_ne_zero (theta phi : ℝ) : (project theta phi).length ≠ 0 := by
  rw [project_length]
  exact ne_of_gt ALIEN_DISTANCE_pos

lemma setLength_project (theta phi : ℝ) :
    (project theta phi).setLength ALIEN_DISTANCE = project theta phi := by
  have h := setLength_of_length (project theta phi) (project_length_ne_zero theta phi)
  rwa [project_length] at h

/-! ### JavaScript remainder lemmas -/

lemma jsMod_zero (b : ℝ) : jsMod 0 b = 0 := by
  simp [jsMod, jsTrunc]

lemma jsMod_neg_small (a b : ℝ) (ha : a < 0) (hb : -b < a) : jsMod a b = a := by
  have hb0 : 0 < b := by linarith
  have hx : a / b < 0 := div_neg_of_neg_of_pos ha hb0
  unfold jsMod jsTrunc
  rw [if_neg (not_le.mpr hx)]
  have hc : ⌈a / b⌉ = 0 := by
    rw [Int.ceil_eq_zero_iff, Set.mem_Ioc]
    refine ⟨?_, le_of_lt hx⟩
    rw [lt_div_iff₀ hb0]
    linarith
  rw [hc]
  push_cast
  ring

/-! ### Structure-projection lemmas for the tick functions -/

lemma handleInput_spherical (st : GameState) (k : Keys) :
    (handleInput st k).spherical =
      if dTheta k ≠ 0 ∨ dPhi k ≠ 0 then
        ⟨min (max 0.01 (st.spherical.theta + dTheta k)) (Real.pi - 0.01),
         jsMod (st.spherical.phi + dPhi k) (Real.pi * 2)⟩
      else st.spherical := by
  cases hp : k.p <;> cases ho : k.o <;>
    by_cases hd : dTheta k ≠ 0 ∨ dPhi k ≠ 0 <;>
      simp [handleInput, hp, ho, hd]

lemma handleInput_position (st : GameState) (k : Keys) :
    (handleInput st k).position =
      if dTheta k ≠ 0 ∨ dPhi k ≠ 0 then
        project (min (max 0.01 (st.spherical.theta + dTheta k)) (Real.pi - 0.01))
          (jsMod (st.spherical.phi + dPhi k) (Real.pi * 2))
      else st.position := by
  cases hp : k.p <;> cases ho : k.o <;>
    by_cases hd : dTheta k ≠ 0 ∨ dPhi k ≠ 0 <;>
      simp [handleInput, hp, ho, hd]

lemma handleInput_cameraDistance (st : GameState) (k : Keys) :
    (handleInput st k).cameraDistance = zoomStep st.cameraDistance k := by
  cases hp : k.p <;> cases ho : k.o <;>
    by_cases hd : dTheta k ≠ 0 ∨ dPhi k ≠ 0 <;>
      simp [handleInput, zoomStep, zoomIn, zoomOut, hp, ho, hd]

lemma updateAlien_spherical (st : GameState) : (updateAlien st).spherical = st.spherical := by
  unfold updateAlien
  split <;> rfl

lemma updateAlien_cameraDistance (st : GameState) :
    (updateAlien st).cameraDistance = st.cameraDistance := by
  unfold updateAlien
  split <;> rfl

lemma updateAlien_position (st : GameState) :
    (updateAlien st).position =
      if st.position.length = 0 then st.position
      else st.position.setLength ALIEN_DISTANCE := by
  unfold updateAlien
  split <;> simp_all

lemma updateCamera_position (st : GameState) : (updateCamera st).position = st.position := by
  unfold updateCamera
  split <;> rfl

lemma updateCamera_spherical (st : GameState) : (updateCamera st).spherical = st.spherical := by
  unfold updateCamera
  split <;> rfl

lemma updateCamera_cameraDistance (st : GameState) :
    (updateCamera st).cameraDistance = st.cameraDistance := by
  unfold updateCamera
  split <;> rfl

lemma updateCamera_cameraPosition (st : GameState) :
    (updateCamera st).cameraPosition =
      if st.position.length = 0 then st.cameraPosition
      else Vec3.smul (ALIEN_DISTANCE + st.cameraDistance) st.position.normalize := by
  unfold updateCamera
  split <;> simp_all

lemma updateCamera_cameraLookAt (st : GameState) :
    (updateCamera st).cameraLookAt =
      if st.position.length = 0 then st.cameraLookAt else st.position := by
  unfold updateCamera
  split <;> simp_all

lemma tick_spherical (st : GameState) (k : Keys) :
    (tick st k).spherical = (handleInput st k).spherical := by
  unfold tick
  rw [updateCamera_spherical, updateAlien_spherical]

lemma tick_cameraDistance (st : GameState) (k : Keys) :
    (tick st k).cameraDistance = zoomStep st.cameraDistance k := by
  unfold tick
  rw [updateCamera_cameraDistance, updateAlien_cameraDistance, handleInput_cameraDistance]

lemma tick_position (st : GameState) (k : Keys) :
    (tick st k).position = (updateAlien (handleInput st k)).position := by
  unfold tick
  rw [updateCamera_position]

/-! ### Constant values and key deltas -/

lemma ALIEN_DISTANCE_val : ALIEN_DISTANCE = 1010 := by
  norm_num [ALIEN_DISTANCE, BLOCK_SIZE]

lemma ANGLE_SPEED_val : ANGLE_SPEED = 0.02 := rfl

lemma ZOOM_SPEED_val : ZOOM_SPEED = 10 := rfl

lemma MIN_ZOOM_val : MIN_ZOOM = 25 := rfl

lemma MAX_ZOOM_val : MAX_ZOOM = 500 := rfl

lemma dTheta_noKeys : dTheta noKeys = 0 := by simp [dTheta, noKeys]

lemma dPhi_noKeys : dPhi noKeys = 0 := by simp [dPhi, noKeys]

lemma dTheta_wKey : dTheta wKey = -ANGLE_SPEED := by simp [dTheta, wKey]

lemma dPhi_wKey : dPhi wKey = 0 := by simp [dPhi, wKey]

lemma dTheta_sKey : dTheta sKey = ANGLE_SPEED := by simp [dTheta, sKey]

lemma dPhi_sKey : dPhi sKey = 0 := by simp [dPhi, sKey]

lemma dTheta_aKey : dTheta aKey = 0 := by simp [dTheta, aKey]

lemma dPhi_aKey : dPhi aKey = -ANGLE_SPEED := by simp [dPhi, aKey]

lemma dTheta_oKey : dTheta oKey = 0 := by simp [dTheta, oKey]

lemma dPhi_oKey : dPhi oKey = 0 := by simp [dPhi, oKey]

lemma eps_le_pi_sub_eps : (0.01 : ℝ) ≤ Real.pi - 0.01 := by
  have h := Real.pi_gt_three
  linarith

lemma handleInput_noKeys (st : GameState) : handleInput st noKeys = st := by
  simp [handleInput, dTheta, dPhi, noKeys]

/-! ### Lengths of axis-aligned vectors and the initial state -/

lemma length_axis_x (r : ℝ) : (Vec3.mk r 0 0).length = |r| := by
  unfold Vec3.length
  rw [show r * r + (0 : ℝ) * 0 + (0 : ℝ) * 0 = r ^ 2 by ring, Real.sqrt_sq_eq_abs]

lemma length_axis_y (r : ℝ) : (Vec3.mk 0 r 0).length = |r| := by
  unfold Vec3.length
  rw [show (0 : ℝ) * 0 + r * r + (0 : ℝ) * 0 = r ^ 2 by ring, Real.sqrt_sq_eq_abs]

lemma length_zero_vec : (Vec3.mk 0 0 0).length = 0 := by
  rw [length_axis_y, abs_zero]

lemma initState_position_length : initState.position.length = ALIEN_DISTANCE := by
  have h : initState.position = Vec3.mk 0 ALIEN_DISTANCE 0 := rfl
  rw [h, length_axis_y, abs_of_pos ALIEN_DISTANCE_pos]

lemma initState_cameraDistance : initState.cameraDistance = 200 := rfl

lemma initState_spherical : initState.spherical = ⟨0, 0⟩ := rfl

/-! ### Zoom-step bounds -/

lemma zoomIn_mem (cd : ℝ) (_h1 : MIN_ZOOM ≤ cd) (h2 : cd ≤ MAX_ZOOM) :
    MIN_ZOOM ≤ zoomIn cd ∧ zoomIn cd ≤ MAX_ZOOM := by
  unfold zoomIn
  refine ⟨le_max_left _ _, max_le ?_ ?_⟩
  · rw [MIN_ZOOM_val, MAX_ZOOM_val]
    norm_num
  · rw [ZOOM_SPEED_val]
    linarith

lemma zoomOut_mem (cd : ℝ) (h1 : MIN_ZOOM ≤ cd) (_h2 : cd ≤ MAX_ZOOM) :
    MIN_ZOOM ≤ zoomOut cd ∧ zoomOut cd ≤ MAX_ZOOM := by
  unfold zoomOut
  refine ⟨le_min ?_ ?_, min_le_left _ _⟩
  · rw [MIN_ZOOM_val, MAX_ZOOM_val]
    norm_num
  · rw [ZOOM_SPEED_val]
    linarith

lemma zoomIn_change (cd : ℝ) (h1 : MIN_ZOOM ≤ cd) :
    cd - ZOOM_SPEED ≤ zoomIn cd ∧ zoomIn cd ≤ cd := by
  unfold zoomIn
  refine ⟨le_max_right _ _, max_le h1 ?_⟩
  rw [ZOOM_SPEED_val]
  linarith

lemma zoomOut_change (cd : ℝ) (h2 : cd ≤ MAX_ZOOM) :
    cd ≤ zoomOut cd ∧ zoomOut cd ≤ cd + ZOOM_SPEED := by
  unfold zoomOut
  refine ⟨le_min h2 ?_, min_le_right _ _⟩
  rw [ZOOM_SPEED_val]
  linarith

lemma zoomStep_mem (cd : ℝ) (k : Keys) (h1 : MIN_ZOOM ≤ cd) (h2 : cd ≤ MAX_ZOOM) :
    MIN_ZOOM ≤ zoomStep cd k ∧ zoomStep cd k ≤ MAX_ZOOM := by
  unfold zoomStep
  cases ho : k.o <;> cases hp : k.p <;> simp only [ho, hp, if_true, if_false, Bool.false_eq_true]
  · exact ⟨h1, h2⟩
  · exact zoomOut_mem cd h1 h2
  · exact zoomIn_mem cd h1 h2
  · exact zoomOut_mem _ (zoomIn_mem cd h1 h2).1 (zoomIn_mem cd h1 h2).2

lemma zoomStep_change (cd : ℝ) (k : Keys) (h1 : MIN_ZOOM ≤ cd) (h2 : cd ≤ MAX_ZOOM) :
    |zoomStep cd k - cd| ≤ ZOOM_SPEED := by
  rw [abs_le]
  unfold zoomStep
  have hz : (0 : ℝ) ≤ ZOOM_SPEED := by
    rw [ZOOM_SPEED_val]
    norm_num
  cases ho : k.o <;> cases hp : k.p <;> simp only [ho, hp, if_true, if_false, Bool.false_eq_true, ite_true, ite_false]
  · constructor <;> linarith
  · have h := zoomOut_change cd h2
    constructor <;> linarith [h.1, h.2]
  · have h := zoomIn_change cd h1
    constructor <;> linarith [h.1, h.2]
  · have hin := zoomIn_change cd h1
    have hmem := zoomIn_mem cd h1 h2
    have hout := zoomOut_change (zoomIn cd) hmem.2
    constructor <;> linarith [hin.1, hin.2, hout.1, hout.2]

/-! ### Running tick sequences -/

lemma runTicks_nil (st : GameState) : runTicks st [] = st := rfl

lemma runTicks_cons (st : GameState) (k : Keys) (ks : List Keys) :
    runTicks st (k :: ks) = runTicks (tick st k) ks := rfl

lemma runTicks_cd_mem (ks : List Keys) :
    ∀ st : GameState, MIN_ZOOM ≤ st.cameraDistance → st.cameraDistance ≤ MAX_ZOOM →
      MIN_ZOOM ≤ (runTicks st ks).cameraDistance ∧
        (runTicks st ks).cameraDistance ≤ MAX_ZOOM := by
  induction ks with
  | nil =>
    intro st h1 h2
    exact ⟨h1, h2⟩
  | cons k ks ih =>
    intro st h1 h2
    rw [runTicks_cons]
    have h := zoomStep_mem st.cameraDistance k h1 h2
    exact ih (tick st k) (by rw [tick_cameraDistance]; exact h.1)
      (by rw [tick_cameraDistance]; exact h.2)

/-! ### The position-tracks-angles invariant -/

/-- The stored Cartesian position agrees with the projection of the stored
spherical pair. -/
def PosInv (st : GameState) : Prop :=
  st.position = project st.spherical.theta st.spherical.phi

lemma initState_posInv : PosInv initState := by
  unfold PosInv project
  have h : initState.position = Vec3.mk 0 ALIEN_DISTANCE 0 := rfl
  have hs : initState.spherical = ⟨0, 0⟩ := rfl
  rw [h, hs]
  ext <;> simp

lemma tick_posInv (st : GameState) (k : Keys) (h : PosInv st) : PosInv (tick st k) := by
  unfold PosInv at h ⊢
  rw [tick_position, tick_spherical, updateAlien_position, handleInput_position,
    handleInput_spherical]
  by_cases hd : dTheta k ≠ 0 ∨ dPhi k ≠ 0
  · rw [if_pos hd, if_pos hd, if_neg (project_length_ne_zero _ _), setLength_project]
  · rw [if_neg hd, if_neg hd, h, if_neg (project_length_ne_zero _ _), setLength_project]

lemma runTicks_posInv (ks : List Keys) :
    ∀ st : GameState, PosInv st → PosInv (runTicks st ks) := by
  induction ks with
  | nil =>
    intro st h
    exact h
  | cons k ks ih =>
    intro st h
    rw [runTicks_cons]
    exact ih (tick st k) (tick_posInv st k h)

/-! ### Polar-angle tracking for repeated `w` ticks -/

lemma tick_theta_of_delta (st : GameState) (k : Keys) (hd : dTheta k ≠ 0 ∨ dPhi k ≠ 0) :
    (tick st k).spherical.theta =
      min (max 0.01 (st.spherical.theta + dTheta k)) (Real.pi - 0.01) := by
  rw [tick_spherical, handleInput_spherical, if_pos hd]

lemma tick_wKey_theta (st : GameState) (h : st.spherical.theta ≤ 0.01) :
    (tick st wKey).spherical.theta = 0.01 := by
  rw [tick_theta_of_delta st wKey
      (Or.inl (by rw [dTheta_wKey, ANGLE_SPEED_val]; norm_num)),
    dTheta_wKey, ANGLE_SPEED_val,
    max_eq_left (by linarith), min_eq_left eps_le_pi_sub_eps]

lemma runTicks_wKey_theta (n : ℕ) :
    ∀ st : GameState, st.spherical.theta = 0.01 →
      (runTicks st (List.replicate n wKey)).spherical.theta = 0.01 := by
  induction n with
  | zero =>
    intro st h
    simpa using h
  | succ n ih =>
    intro st h
    rw [List.replicate_succ, runTicks_cons]
    exact ih (tick st wKey) (tick_wKey_theta st (le_of_eq h))

lemma initState_position_length_ne_zero : initState.position.length ≠ 0 := by
  rw [initState_position_length]
  exact ne_of_gt ALIEN_DISTANCE_pos

/-- The initial state with the alien's cached position zeroed out, exercising
the zero-length guards. -/
def zeroPosState : GameState := { initState with position := ⟨0, 0, 0⟩ }

lemma zeroPosState_position_length : zeroPosState.position.length = 0 := by
  have h : zeroPosState.position = Vec3.mk 0 0 0 := rfl
  rw [h, length_zero_vec]

/-- The initial state with the zoom already at its minimum. -/
def minZoomState : GameState := { initState with cameraDistance := MIN_ZOOM }

/-- A state whose cached Cartesian position is on the sphere but inconsistent
with its stored spherical pair: `theta = 0.01, phi = 0` project to the `+Y`
side, while the cached position points along `+X`. -/
def staleState : GameState :=
  { initState with spherical := ⟨0.01, 0⟩, position := ⟨ALIEN_DISTANCE, 0, 0⟩ }

lemma staleState_position_length : staleState.position.length = ALIEN_DISTANCE := by
  have h : staleState.position = Vec3.mk ALIEN_DISTANCE 0 0 := rfl
  rw [h, length_axis_x, abs_of_pos ALIEN_DISTANCE_pos]

/-! ### Claims -/

/-- Claim C1: the spec asserts that after each locomotion update the azimuth
`phi` lies in `[0, 2π)` and is never negative, and the source comment
documents `phi: 0..2PI`.  The code instead uses the JavaScript `%` operator,
which keeps the sign of the dividend: pressing only `a` on the very first
tick drives `phi` from `0` to `-ANGLE_SPEED = -0.02`, a negative value.  This
theorem evaluates the code at that failing input. -/
theorem azimuth_goes_negative_on_a_key :
    (tick initState aKey).spherical.phi = -ANGLE_SPEED ∧
    (tick initState aKey).spherical.phi < 0 := by
  have hd : dTheta aKey ≠ 0 ∨ dPhi aKey ≠ 0 :=
    Or.inr (by rw [dPhi_aKey, ANGLE_SPEED_val]; norm_num)
  have hphi : (tick initState aKey).spherical.phi =
      jsMod (initState.spherical.phi + dPhi aKey) (Real.pi * 2) := by
    rw [tick_spherical, handleInput_spherical, if_pos hd]
  have h0 : initState.spherical.phi = 0 := rfl
  have hpi := Real.pi_gt_three
  rw [hphi, h0, dPhi_aKey, ANGLE_SPEED_val,
    show (0 : ℝ) + -0.02 = -0.02 by norm_num,
    jsMod_neg_small (-0.02) (Real.pi * 2) (by norm_num) (by linarith)]
  norm_num

/-- Claim C2: after every tick, a position of nonzero length ends up at
distance exactly `ALIEN_DISTANCE` from `CENTER_AXIS`, while a zero-length
position is left untouched by `updateAlien` rather than divided by zero. -/
theorem tick_renormalizes_position (st : GameState) (k : Keys) :
    ((tick st k).position.length ≠ 0 →
      (Vec3.sub (tick st k).position CENTER_AXIS).length = ALIEN_DISTANCE) ∧
    ((handleInput st k).position.length = 0 →
      (tick st k).position = (handleInput st k).position) := by
  constructor
  · intro h
    rw [vec_sub_center]
    rw [tick_position, updateAlien_position] at h ⊢
    by_cases h0 : (handleInput st k).position.length = 0
    · rw [if_pos h0] at h
      exact absurd h0 h
    · rw [if_neg h0]
      exact length_setLength _ _ h0 (le_of_lt ALIEN_DISTANCE_pos)
  · intro h0
    rw [tick_position, updateAlien_position, if_pos h0]

/-- Witness for C2: both branches at concrete states — the initial state is
kept at the sphere radius, and a zero cached position passes through the tick
untouched. -/
theorem tick_renormalizes_position_witness :
    (Vec3.sub (tick initState noKeys).position CENTER_AXIS).length = ALIEN_DISTANCE ∧
    (tick zeroPosState noKeys).position = (handleInput zeroPosState noKeys).position := by
  constructor
  · apply (tick_renormalizes_position initState noKeys).1
    rw [tick_position, handleInput_noKeys, updateAlien_position,
      if_neg initState_position_length_ne_zero,
      length_setLength _ _ initState_position_length_ne_zero (le_of_lt ALIEN_DISTANCE_pos)]
    exact ne_of_gt ALIEN_DISTANCE_pos
  · apply (tick_renormalizes_position zeroPosState noKeys).2
    rw [handleInput_noKeys]
    exact zeroPosState_position_length

/-- Claim C3: for an agent position of nonzero length, `updateCamera` places
the camera at `normalize(position − center) * (ALIEN_DISTANCE + cameraDistance)
+ center`, makes the look target the agent position itself, and the cross
product of `(agent − center)` with `(camera − center)` is the zero vector, so
center, agent and camera are collinear. -/
theorem updateCamera_collinear (st : GameState) (h : st.position.length ≠ 0) :
    (updateCamera st).cameraPosition =
      Vec3.add (Vec3.smul (ALIEN_DISTANCE + st.cameraDistance)
        (Vec3.normalize (Vec3.sub st.position CENTER_AXIS))) CENTER_AXIS ∧
    (updateCamera st).cameraLookAt = st.position ∧
    Vec3.cross (Vec3.sub st.position CENTER_AXIS)
      (Vec3.sub (updateCamera st).cameraPosition CENTER_AXIS) = Vec3.zero := by
  have hc : (updateCamera st).cameraPosition =
      Vec3.smul (ALIEN_DISTANCE + st.cameraDistance) st.position.normalize := by
    rw [updateCamera_cameraPosition, if_neg h]
  refine ⟨?_, ?_, ?_⟩
  · rw [hc, vec_sub_center, vec_add_center]
  · rw [updateCamera_cameraLookAt, if_neg h]
  · rw [hc, vec_sub_center, vec_sub_center]
    unfold Vec3.normalize
    rw [vec_smul_smul]
    ext <;> simp [Vec3.cross, Vec3.smul, Vec3.zero] <;> ring

/-- Witness for C3 at the initial state. -/
theorem updateCamera_collinear_witness :
    (updateCamera initState).cameraLookAt = initState.position ∧
    Vec3.cross (Vec3.sub initState.position CENTER_AXIS)
      (Vec3.sub (updateCamera initState).cameraPosition CENTER_AXIS) = Vec3.zero :=
  ⟨(updateCamera_collinear initState initState_position_length_ne_zero).2.1,
   (updateCamera_collinear initState initState_position_length_ne_zero).2.2⟩

/-- Claim C4: on any tick whose directional keys produce a nonzero angular
delta, the new polar angle is exactly
`clamp(theta + dTheta, 0.01, π − 0.01)`, hence it always stays inside
`[0.01, π − 0.01]` and never equals `0` or `π` after an update. -/
theorem theta_clamped_on_update (st : GameState) (k : Keys)
    (hd : dTheta k ≠ 0 ∨ dPhi k ≠ 0) :
    (tick st k).spherical.theta =
      min (max 0.01 (st.spherical.theta + dTheta k)) (Real.pi - 0.01) ∧
    0.01 ≤ (tick st k).spherical.theta ∧
    (tick st k).spherical.theta ≤ Real.pi - 0.01 ∧
    (tick st k).spherical.theta ≠ 0 ∧
    (tick st k).spherical.theta ≠ Real.pi := by
  have he := tick_theta_of_delta st k hd
  have hlow : 0.01 ≤ (tick st k).spherical.theta := by
    rw [he]
    exact le_min (le_max_left _ _) eps_le_pi_sub_eps
  have hhigh : (tick st k).spherical.theta ≤ Real.pi - 0.01 := by
    rw [he]
    exact min_le_right _ _
  refine ⟨he, hlow, hhigh, ?_, ?_⟩
  · intro h0
    rw [h0] at hlow
    norm_num at hlow
  · intro h0
    rw [h0] at hhigh
    linarith

/-- Witness for C4: a first `s`-key tick from the initial state. -/
theorem theta_clamped_on_update_witness :
    0.01 ≤ (tick initState sKey).spherical.theta ∧
    (tick initState sKey).spherical.theta ≤ Real.pi - 0.01 :=
  ⟨(theta_clamped_on_update initState sKey
      (Or.inl (by rw [dTheta_sKey, ANGLE_SPEED_val]; norm_num))).2.1,
   (theta_clamped_on_update initState sKey
      (Or.inl (by rw [dTheta_sKey, ANGLE_SPEED_val]; norm_num))).2.2.1⟩

/-- Counterexample to claim C5 as stated: the reprojection in `handleInput`
is guarded by `dTheta !== 0 || dPhi !== 0`, so on an idle tick the cached
position is NOT recomputed from the angular pair.  From a state whose cached
position (`+X` direction) disagrees with its angles (`theta = 0.01, phi = 0`,
projecting near `+Y`), an idle tick leaves the stale position in place. -/
theorem idle_tick_keeps_stale_position :
    (tick staleState noKeys).position.x = ALIEN_DISTANCE ∧
    (project (tick staleState noKeys).spherical.theta
      (tick staleState noKeys).spherical.phi).x = 0 ∧
    (tick staleState noKeys).position ≠
      project (tick staleState noKeys).spherical.theta
        (tick staleState noKeys).spherical.phi := by
  have hple : staleState.position.length ≠ 0 := by
    rw [staleState_position_length]
    exact ne_of_gt ALIEN_DISTANCE_pos
  have hpos : (tick staleState noKeys).position = staleState.position := by
    rw [tick_position, handleInput_noKeys, updateAlien_position, if_neg hple,
      ← staleState_position_length]
    exact setLength_of_length _ hple
  have hsph : (tick staleState noKeys).spherical = ⟨0.01, 0⟩ := by
    rw [tick_spherical, handleInput_noKeys]
    rfl
  have hx : staleState.position.x = ALIEN_DISTANCE := rfl
  refine ⟨by rw [hpos, hx], by rw [hsph]; simp [project], ?_⟩
  intro hcontra
  have hxx := congrArg Vec3.x hcontra
  rw [hpos, hx, hsph] at hxx
  simp [project] at hxx
  exact absurd hxx (ne_of_gt ALIEN_DISTANCE_pos)

/-- Claim C5, amended: the Cartesian position is recomputed from the angular
pair exactly on ticks where some directional delta is nonzero (idle ticks
leave both the angles and the position alone); nevertheless, along every tick
sequence from the initial state the cached position always equals the
projection of the current angular pair, so it is never independent truth. -/
theorem position_tracks_angles_along_runs :
    (∀ ks : List Keys,
      (runTicks initState ks).position =
        project (runTicks initState ks).spherical.theta
          (runTicks initState ks).spherical.phi) ∧
    (∀ (st : GameState) (k : Keys), dTheta k ≠ 0 ∨ dPhi k ≠ 0 →
      (handleInput st k).position =
        project (handleInput st k).spherical.theta (handleInput st k).spherical.phi) ∧
    (∀ (st : GameState) (k : Keys), dTheta k = 0 ∧ dPhi k = 0 →
      (handleInput st k).position = st.position ∧
      (handleInput st k).spherical = st.spherical) := by
  refine ⟨?_, ?_, ?_⟩
  · intro ks
    have h := runTicks_posInv ks initState initState_posInv
    unfold PosInv at h
    exact h
  · intro st k hd
    rw [handleInput_position, if_pos hd, handleInput_spherical, if_pos hd]
  · intro st k hz
    have hd : ¬(dTheta k ≠ 0 ∨ dPhi k ≠ 0) := by
      rw [hz.1, hz.2]
      simp
    exact ⟨by rw [handleInput_position, if_neg hd],
      by rw [handleInput_spherical, if_neg hd]⟩

/-- Witness for C5 (amended) at concrete runs and ticks. -/
theorem position_tracks_angles_along_runs_witness :
    (runTicks initState []).position =
      project (runTicks initState []).spherical.theta
        (runTicks initState []).spherical.phi ∧
    (handleInput initState sKey).position =
      project (handleInput initState sKey).spherical.theta
        (handleInput initState sKey).spherical.phi ∧
    (handleInput initState noKeys).position = initState.position :=
  ⟨position_tracks_angles_along_runs.1 [],
   position_tracks_angles_along_runs.2.1 initState sKey
     (Or.inl (by rw [dTheta_sKey, ANGLE_SPEED_val]; norm_num)),
   (position_tracks_angles_along_runs.2.2 initState noKeys
     ⟨dTheta_noKeys, dPhi_noKeys⟩).1⟩

/-- Claim C6: whenever a tick reprojects the position from the spherical
pair, the resulting Cartesian position is exactly
`(r sin θ sin φ, r cos θ, r sin θ cos φ)` with `r = ALIEN_DISTANCE` — and the
defensive renormalisation that follows leaves it unchanged. -/
theorem reprojection_formula (st : GameState) (k : Keys)
    (hd : dTheta k ≠ 0 ∨ dPhi k ≠ 0) :
    (tick st k).position =
      ⟨ALIEN_DISTANCE * Real.sin (tick st k).spherical.theta *
          Real.sin (tick st k).spherical.phi,
        ALIEN_DISTANCE * Real.cos (tick st k).spherical.theta,
        ALIEN_DISTANCE * Real.sin (tick st k).spherical.theta *
          Real.cos (tick st k).spherical.phi⟩ := by
  have hpos : (tick st k).position =
      project (min (max 0.01 (st.spherical.theta + dTheta k)) (Real.pi - 0.01))
        (jsMod (st.spherical.phi + dPhi k) (Real.pi * 2)) := by
    rw [tick_position, updateAlien_position, handleInput_position, if_pos hd,
      if_neg (project_length_ne_zero _ _), setLength_project]
  have hsph : (tick st k).spherical =
      ⟨min (max 0.01 (st.spherical.theta + dTheta k)) (Real.pi - 0.01),
        jsMod (st.spherical.phi + dPhi k) (Real.pi * 2)⟩ := by
    rw [tick_spherical, handleInput_spherical, if_pos hd]
  rw [hpos, hsph]
  rfl

/-- Witness for C6: a first `s`-key tick from the initial state. -/
theorem reprojection_formula_witness :
    (tick initState sKey).position =
      ⟨ALIEN_DISTANCE * Real.sin (tick initState sKey).spherical.theta *
          Real.sin (tick initState sKey).spherical.phi,
        ALIEN_DISTANCE * Real.cos (tick initState sKey).spherical.theta,
        ALIEN_DISTANCE * Real.sin (tick initState sKey).spherical.theta *
          Real.cos (tick initState sKey).spherical.phi⟩ :=
  reprojection_formula initState sKey
    (Or.inl (by rw [dTheta_sKey, ANGLE_SPEED_val]; norm_num))

/-- Claim C7: along every tick sequence from the initial state the zoom
distance stays within `[MIN_ZOOM, MAX_ZOOM]`; a single tick from any
in-range state changes it by at most `ZOOM_SPEED`; and a zoom-in tick from
`MIN_ZOOM` leaves it unchanged at `MIN_ZOOM`. -/
theorem zoom_clamped :
    (∀ ks : List Keys,
      MIN_ZOOM ≤ (runTicks initState ks).cameraDistance ∧
        (runTicks initState ks).cameraDistance ≤ MAX_ZOOM) ∧
    (∀ (st : GameState) (k : Keys),
      MIN_ZOOM ≤ st.cameraDistance → st.cameraDistance ≤ MAX_ZOOM →
        |(tick st k).cameraDistance - st.cameraDistance| ≤ ZOOM_SPEED) ∧
    (∀ (st : GameState) (k : Keys),
      st.cameraDistance = MIN_ZOOM → k.o = true → k.p = false →
        (tick st k).cameraDistance = MIN_ZOOM) := by
  refine ⟨?_, ?_, ?_⟩
  · intro ks
    apply runTicks_cd_mem
    · rw [initState_cameraDistance, MIN_ZOOM_val]
      norm_num
    · rw [initState_cameraDistance, MAX_ZOOM_val]
      norm_num
  · intro st k hl hh
    rw [tick_cameraDistance]
    exact zoomStep_change st.cameraDistance k hl hh
  · intro st k hcd ho hp
    rw [tick_cameraDistance]
    unfold zoomStep
    simp only [ho, hp, if_true, if_false, Bool.false_eq_true]
    rw [hcd]
    unfold zoomIn
    exact max_eq_left (by rw [MIN_ZOOM_val, ZOOM_SPEED_val]; norm_num)

/-- Witness for C7: the empty run, an idle tick from the initial state, and a
zoom-in tick from a `MIN_ZOOM` state. -/
theorem zoom_clamped_witness :
    MIN_ZOOM ≤ (runTicks initState []).cameraDistance ∧
    |(tick initState noKeys).cameraDistance - initState.cameraDistance| ≤ ZOOM_SPEED ∧
    (tick minZoomState oKey).cameraDistance = MIN_ZOOM :=
  ⟨(zoom_clamped.1 []).1,
   zoom_clamped.2.1 initState noKeys
     (by rw [initState_cameraDistance, MIN_ZOOM_val]; norm_num)
     (by rw [initState_cameraDistance, MAX_ZOOM_val]; norm_num),
   zoom_clamped.2.2 minZoomState oKey rfl rfl rfl⟩

/-- Counterexample to claim C8 as stated: "forward" is the `w` key, which per
the source comment decreases `theta`.  Starting at `theta = 0` and applying
forward for 1000 consecutive ticks pins `theta` at the lower clamp bound
`ε = 0.01` — not at the `π − ε` boundary the claim names. -/
theorem forward_run_stays_at_epsilon_not_pi :
    (runTicks initState (List.replicate 1000 wKey)).spherical.theta = 0.01 ∧
    (runTicks initState (List.replicate 1000 wKey)).spherical.theta ≠
      Real.pi - 0.01 := by
  have h : (runTicks initState (List.replicate 1000 wKey)).spherical.theta = 0.01 := by
    rw [show (1000 : ℕ) = 999 + 1 by norm_num, List.replicate_succ, runTicks_cons]
    exact runTicks_wKey_theta 999 _
      (tick_wKey_theta initState
        (by rw [show initState.spherical.theta = 0 from rfl]; norm_num))
  refine ⟨h, ?_⟩
  rw [h]
  have hpi := Real.pi_gt_three
  intro hcontra
  linarith

/-- Claim C8, amended: starting from `theta = 0` (top pole), the first
forward (`w`) tick clamps the angle to exactly `ε = 0.01`, and any number
`n ≥ 1` of consecutive forward ticks keeps it pinned at the `ε` boundary,
inside `[ε, π − ε]` and never beyond either bound. -/
theorem forward_run_theta_eq_epsilon (n : ℕ) (hn : 1 ≤ n) :
    (runTicks initState (List.replicate n wKey)).spherical.theta = 0.01 ∧
    0.01 ≤ (runTicks initState (List.replicate n wKey)).spherical.theta ∧
    (runTicks initState (List.replicate n wKey)).spherical.theta ≤
      Real.pi - 0.01 := by
  obtain ⟨m, rfl⟩ : ∃ m, n = m + 1 := ⟨n - 1, by omega⟩
  have h : (runTicks initState (List.replicate (m + 1) wKey)).spherical.theta = 0.01 := by
    rw [List.replicate_succ, runTicks_cons]
    exact runTicks_wKey_theta m _
      (tick_wKey_theta initState
        (by rw [show initState.spherical.theta = 0 from rfl]; norm_num))
  exact ⟨h, le_of_eq h.symm, by rw [h]; exact eps_le_pi_sub_eps⟩

/-- Witness for C8 (amended) at 1000 forward ticks. -/
theorem forward_run_theta_eq_epsilon_witness :
    (runTicks initState (List.replicate 1000 wKey)).spherical.theta = 0.01 :=
  (forward_run_theta_eq_epsilon 1000 (by norm_num)).1

/-- Claim C9: when the agent's position coincides with the center
(zero-length direction vector), `updateCamera` is a no-op for that tick: the
whole state, in particular the camera position and look target, is left
unchanged, and the total function surfaces no error. -/
theorem updateCamera_noop_on_zero_position (st : GameState)
    (h : st.position.length = 0) :
    updateCamera st = st ∧
    (updateCamera st).cameraPosition = st.cameraPosition ∧
    (updateCamera st).cameraLookAt = st.cameraLookAt := by
  have he : updateCamera st = st := by
    unfold updateCamera
    rw [if_pos h]
  exact ⟨he, by rw [he], by rw [he]⟩

/-- Witness for C9 at a concrete zero-position state. -/
theorem updateCamera_noop_on_zero_position_witness :
    updateCamera zeroPosState = zeroPosState ∧
    (updateCamera zeroPosState).cameraPosition = zeroPosState.cameraPosition ∧
    (updateCamera zeroPosState).cameraLookAt = zeroPosState.cameraLookAt :=
  updateCamera_noop_on_zero_position zeroPosState zeroPosState_position_length

/-- Claim C10 (implicit): after a tick from any state with an in-range zoom,
if the agent position is nonzero then the camera sits at distance exactly
`ALIEN_DISTANCE + cameraDistance` from the center, which is at least
`ALIEN_DISTANCE + MIN_ZOOM`, and is strictly farther from the center than
the agent — never between the agent and the center. -/
theorem camera_farther_than_agent (st : GameState) (k : Keys)
    (h1 : MIN_ZOOM ≤ st.cameraDistance) (h2 : st.cameraDistance ≤ MAX_ZOOM)
    (h3 : (tick st k).position.length ≠ 0) :
    (tick st k).cameraPosition.length =
      ALIEN_DISTANCE + (tick st k).cameraDistance ∧
    ALIEN_DISTANCE + MIN_ZOOM ≤ (tick st k).cameraPosition.length ∧
    (tick st k).position.length < (tick st k).cameraPosition.length := by
  have hlen2 : (updateAlien (handleInput st k)).position.length ≠ 0 := by
    rw [← tick_position]
    exact h3
  have hcd2 : (updateAlien (handleInput st k)).cameraDistance =
      zoomStep st.cameraDistance k := by
    rw [updateAlien_cameraDistance, handleInput_cameraDistance]
  have hmem := zoomStep_mem st.cameraDistance k h1 h2
  have hcdpos : 0 < zoomStep st.cameraDistance k := by
    rw [MIN_ZOOM_val] at hmem
    linarith [hmem.1]
  have hcam : (tick st k).cameraPosition =
      Vec3.smul (ALIEN_DISTANCE + (updateAlien (handleInput st k)).cameraDistance)
        (updateAlien (handleInput st k)).position.normalize := by
    unfold tick
    rw [updateCamera_cameraPosition, if_neg hlen2]
  have hclen : (tick st k).cameraPosition.length =
      ALIEN_DISTANCE + zoomStep st.cameraDistance k := by
    rw [hcam, length_smul, length_normalize _ hlen2, mul_one, hcd2,
      abs_of_pos (by linarith [ALIEN_DISTANCE_pos])]
  have htcd : (tick st k).cameraDistance = zoomStep st.cameraDistance k :=
    tick_cameraDistance st k
  have hagent : (tick st k).position.length = ALIEN_DISTANCE := by
    rw [tick_position] at h3 ⊢
    rw [updateAlien_position] at h3 ⊢
    by_cases h0 : (handleInput st k).position.length = 0
    · rw [if_pos h0] at h3
      exact absurd h0 h3
    · rw [if_neg h0]
      exact length_setLength _ _ h0 (le_of_lt ALIEN_DISTANCE_pos)
  refine ⟨by rw [hclen, htcd], ?_, ?_⟩
  · rw [hclen]
    have := hmem.1
    linarith
  · rw [hclen, hagent]
    linarith

/-- Witness for C10: an idle tick from the initial state. -/
theorem camera_farther_than_agent_witness :
    ALIEN_DISTANCE + MIN_ZOOM ≤ (tick initState noKeys).cameraPosition.length ∧
    (tick initState noKeys).position.length <
      (tick initState noKeys).cameraPosition.length := by
  have h3 : (tick initState noKeys).position.length ≠ 0 := by
    rw [tick_position, handleInput_noKeys, updateAlien_position,
      if_neg initState_position_length_ne_zero,
      length_setLength _ _ initState_position_length_ne_zero
        (le_of_lt ALIEN_DISTANCE_pos)]
    exact ne_of_gt ALIEN_DISTANCE_pos
  exact ⟨(camera_farther_than_agent initState noKeys
      (by rw [initState_cameraDistance, MIN_ZOOM_val]; norm_num)
      (by rw [initState_cameraDistance, MAX_ZOOM_val]; norm_num) h3).2.1,
    (camera_farther_than_agent initState noKeys
      (by rw [initState_cameraDistance, MIN_ZOOM_val]; norm_num)
      (by rw [initState_cameraDistance, MAX_ZOOM_val]; norm_num) h3).2.2⟩

end
